import Mathlib

/-!
Verification of lockfree::AtomicWrapper (src/AtomicWrapper.h).

The container holds a single `std::shared_ptr<T> objectPtr` slot, initialized to
`nullptr`, and every operation acts through one atomic pointer load, store, or
compare-and-swap.  In sequential (single-thread, no interference) executions we
embed the slot as `Option T`: `none` is the null pointer (empty slot), `some v`
is a pointer to a snapshot holding `v`.  Operations become state-passing
functions on `Option T`.  The default-constructed value `T()` is embedded as
`default` of an `Inhabited` instance.

The compare-and-swap retry loop of `update` is embedded in two ways:
* sequentially, parameterized by the list of slot contents that each failed
  compare-exchange writes back into the expected pointer (`updateFrom`,
  `updateVoidFrom`); the empty list is an execution with no interference, where
  the first compare-exchange succeeds;
* concurrently, as a small-step interleaving relation over K threads each
  running the void-form update loop with an increment mutate function
  (namespace `Concurrent` below).
-/

namespace AtomicWrapper

universe u v

variable {T : Type u} {U : Type v}

/-- `store(updatedObject)`: `atomic_store_explicit(&objectPtr, make_shared<T>(updatedObject), relaxed)`.
The slot is unconditionally replaced by a fresh snapshot of the value. -/
def store (v : T) (_s : Option T) : Option T :=
  some v

/-- `T load() const`: atomically load the slot pointer; if it is null return a
default-constructed `T()`, otherwise return a copy of the pointed-to value. -/
def load [Inhabited T] (s : Option T) : T :=
  match s with
  | none => default
  | some v => v

/-- `bool load(T& outputObject) const`: if the slot pointer is null return `false`
and leave the output object untouched; otherwise copy the value into the output
object and return `true`.  Embedded as returning the flag together with the
(possibly updated) output object. -/
def loadOut (s : Option T) (outputObject : T) : Bool × T :=
  match s with
  | none => (false, outputObject)
  | some v => (true, v)

/-- `load` as a state-passing operation: the method is `const` and performs only
an atomic load of the slot pointer, so the slot state is returned unchanged. -/
def loadOp [Inhabited T] (s : Option T) : Option T × T :=
  (s, load s)

/-- `read(readFunction)`: atomically load the slot pointer and apply the function
to the current value (`T()` if the pointer is null), returning the function's
result.  The method is `const` and performs only an atomic load, so in
state-passing form the slot is returned unchanged.  To express that the
transform may mutate the argument it is handed, the embedded transform returns
both a (possibly modified) copy of its argument and its result; the source
passes the argument by const reference (or as a temporary), so the modified
copy can never reach the slot and is discarded here. -/
def readOp [Inhabited T] (f : T → T × U) (s : Option T) : Option T × U :=
  (s, (f (load s)).2)

/-- The value-returning `U update(std::function<U(T&)>)` retry loop, sequentially.
Each iteration copies the currently observed value (`T()` if the observed
pointer is null), invokes the mutate function on the copy, allocates a snapshot
of the mutated copy, and attempts a compare-exchange.  `sched` lists, for each
failed compare-exchange in turn, the slot content that the weak compare-exchange
writes back into the expected pointer; when the list is exhausted the
compare-exchange succeeds and the last mutated copy is installed.  Returns the
final slot state, the result of the last mutate invocation (the one the source
returns), and the number of times the mutate function was invoked. -/
def updateFrom [Inhabited T] (f : T → T × U) :
    List (Option T) → Option T → Option T × U × Nat
  | [], cur =>
      let fr := f (load cur)
      (some fr.1, fr.2, 1)
  | w :: rest, cur =>
      let _fr := f (load cur)
      let r := updateFrom f rest w
      (r.1, r.2.1, r.2.2 + 1)

/-- The void-form `void update(std::function<void(T&)>)` retry loop, sequentially,
with the same schedule convention as `updateFrom`.  The mutate function acts on
the private copy in place, embedded as `T → T`.  Returns the final slot state
and the number of times the mutate function was invoked. -/
def updateVoidFrom [Inhabited T] (f : T → T) :
    List (Option T) → Option T → Option T × Nat
  | [], cur =>
      (some (f (load cur)), 1)
  | w :: rest, cur =>
      let _x := f (load cur)
      let r := updateVoidFrom f rest w
      (r.1, r.2 + 1)

/-- `init()`: the source body is exactly `store(T());`. -/
def init [Inhabited T] (s : Option T) : Option T :=
  store default s

/-- `reset()`: atomically store a null pointer into the slot. -/
def reset (_s : Option T) : Option T :=
  none

/-- `operator=(const T& t)`: the source body calls `store(t)` and returns `*this`;
the resulting slot state is the embedded content. -/
def assignFromValue (t : T) (s : Option T) : Option T :=
  store t s

/-- `operator==(std::nullptr_t)`: atomically load the slot pointer and compare it
with the null pointer. -/
def eqNullb (s : Option T) : Bool :=
  match s with
  | none => true
  | some _ => false

/-- The defaulted constructor `AtomicWrapper() = default`: the member initializer
leaves `objectPtr = nullptr`, so the slot starts empty.  (The non-template
defaulted constructor is preferred by overload resolution over the variadic
template for a zero-argument construction.) -/
def mkDefault (T : Type u) : Option T :=
  none

/-- `AtomicWrapper(T initializeObject)`: `objectPtr = make_shared<T>(initializeObject)`. -/
def mkFromValue (v : T) : Option T :=
  some v

/-- The variadic constructor `AtomicWrapper(Args&&... args)`:
`objectPtr = make_shared<T>(forward<Args>(args)...)`, i.e. the slot holds the
value the value type constructs from the forwarded arguments.  The construction
of `T` from the argument pack is abstracted as a function applied to the pack. -/
def mkFromArgs {A : Type v} (construct : A → T) (args : A) : Option T :=
  some (construct args)

/-- `store` with an explicit allocation outcome.  `make_shared<T>(updatedObject)`
is evaluated before the atomic store; if the allocation fails, the out-of-memory
exception propagates to the caller and the atomic store never executes, leaving
the slot unchanged.  The `Bool` in the result is `false` exactly when the
failure propagated. -/
def storeF (allocOk : Bool) (v : T) (s : Option T) : Option T × Bool :=
  if allocOk then (store v s, true) else (s, false)

/-- The first iteration of the value-returning `update` loop with an explicit
allocation outcome.  The private copy is made and the mutate function invoked;
then `make_shared<T>(updateObject)` runs.  If that allocation fails, the
exception propagates before any compare-exchange executes, so the slot is
unchanged and no result is returned (`none`). -/
def updateF [Inhabited T] (allocOk : Bool) (f : T → T × U) (s : Option T) :
    Option T × Option U :=
  let fr := f (load s)
  if allocOk then (some fr.1, some fr.2) else (s, none)

lemma updateFrom_fst_isSome [Inhabited T] (f : T → T × U) (sched : List (Option T))
    (s : Option T) : (updateFrom f sched s).1.isSome := by
  induction sched generalizing s with
  | nil => rfl
  | cons w rest ih => simpa [updateFrom] using ih w

lemma updateVoidFrom_fst_isSome [Inhabited T] (f : T → T) (sched : List (Option T))
    (s : Option T) : (updateVoidFrom f sched s).1.isSome := by
  induction sched generalizing s with
  | nil => rfl
  | cons w rest ih => simpa [updateVoidFrom] using ih w

/-- C1: a call of either `update` overload that experiences no concurrent
modification (empty interference schedule: the first compare-exchange succeeds)
makes one private copy of the current value (a fresh default if the slot is
empty), invokes the mutate function exactly once on it, installs the mutated
copy as the new snapshot, returns the mutate function's result in the
value-returning form, and a subsequent `load` returns the mutated value. -/
theorem update_no_contention [Inhabited T] (f : T → T × U) (g : T → T) (s : Option T) :
    updateFrom f [] s = (some (f (load s)).1, (f (load s)).2, 1) ∧
    updateVoidFrom g [] s = (some (g (load s)), 1) ∧
    load (updateFrom f [] s).1 = (f (load s)).1 ∧
    load (updateVoidFrom g [] s).1 = g (load s) :=
  ⟨rfl, rfl, rfl, rfl⟩

/-- C3: for every value `v`, `store(v)` followed by `load()` with no intervening
operations returns a value equal to `v`. -/
theorem store_then_load [Inhabited T] (v : T) (s : Option T) :
    load (store v s) = v :=
  rfl

/-- C4: after `reset()` the slot is empty; on an empty slot `load()` returns a
default-constructed value and `load(out)` returns `false` leaving `out`
unchanged; on a non-empty slot `load(out)` returns `true` and copies the
current value into `out`. -/
theorem reset_empty_semantics [Inhabited T] (s : Option T) (v outputObject : T) :
    reset s = none ∧
    load (reset s) = default ∧
    loadOut (reset s) outputObject = (false, outputObject) ∧
    loadOut (some v) outputObject = (true, v) :=
  ⟨rfl, rfl, rfl, rfl⟩

/-- C5: the slot has exactly the two states empty (`none`) and holding a
snapshot (`some`), and the operations realize the stated transitions: after
`store`, `init`, or a completed `update` (under any interference schedule) the
slot holds a snapshot, never null; after `reset` it is empty; `load` and `read`
leave the slot state unchanged. -/
theorem two_state_transitions [Inhabited T] (v : T) (s : Option T)
    (f : T → T × U) (g : T → T) (sched sched' : List (Option T)) (r : T → T × U) :
    (store v s).isSome ∧
    (init s).isSome ∧
    (updateFrom f sched s).1.isSome ∧
    (updateVoidFrom g sched' s).1.isSome ∧
    reset s = none ∧
    (loadOp s).1 = s ∧
    (readOp r s).1 = s :=
  ⟨rfl, rfl, updateFrom_fst_isSome f sched s, updateVoidFrom_fst_isSome g sched' s,
    rfl, rfl, rfl⟩

/-- C6: `read(f)` returns `f` applied to the slot's current value (a
default-constructed value if the slot is empty), and leaves the slot unchanged:
a `load()` after `read(f)` returns the same value as a `load()` before, even
when the transform mutates the argument copy it is given (the mutated copy is
discarded). -/
theorem read_frame [Inhabited T] (f : T → T × U) (s : Option T) :
    (readOp f s).2 = (f (load s)).2 ∧
    (readOp f s).1 = s ∧
    load (readOp f s).1 = load s :=
  ⟨rfl, rfl, rfl⟩

/-- C7: if snapshot allocation fails during `store` or `update`, the failure
propagates to the caller (flag `false`, result `none`), no value is published,
the slot keeps its prior state, and a subsequent `load()` returns the same
value as before the failed call. -/
theorem alloc_failure_preserves_state [Inhabited T] (v : T) (s : Option T)
    (f : T → T × U) :
    (storeF false v s).2 = false ∧
    (storeF false v s).1 = s ∧
    load (storeF false v s).1 = load s ∧
    (updateF false f s).2 = none ∧
    (updateF false f s).1 = s ∧
    load (updateF false f s).1 = load s :=
  ⟨rfl, rfl, rfl, rfl, rfl, rfl⟩

/-- C8: `init()` is the same operation as `store` of a default-constructed
value, after which the slot is non-empty and `load()` returns the default
value; and assignment from a value `t` is the same operation as `store(t)`. -/
theorem init_and_assignment_are_stores [Inhabited T] (t : T) (s : Option T) :
    init s = store (default : T) s ∧
    (init s).isSome ∧
    load (init s) = (default : T) ∧
    assignFromValue t s = store t s :=
  ⟨rfl, rfl, rfl, rfl⟩

/-- C9: a default-constructed container starts empty: comparison with the null
pointer returns `true`, `load()` returns a default-constructed value, and
`load(out)` returns `false` leaving `out` unchanged. -/
theorem default_constructed_is_empty [Inhabited T] (outputObject : T) :
    eqNullb (mkDefault T) = true ∧
    load (mkDefault T) = (default : T) ∧
    loadOut (mkDefault T) outputObject = (false, outputObject) :=
  ⟨rfl, rfl, rfl⟩

/-- C10: constructing the container from an initial value `v`, or from
constructor arguments forwarded to the value type, yields a non-empty slot:
comparison with the null pointer returns `false` and `load()` returns `v`
(respectively the value built from the forwarded arguments). -/
theorem value_constructed_is_nonempty [Inhabited T] {A : Type v}
    (v : T) (construct : A → T) (args : A) :
    eqNullb (mkFromValue v) = false ∧
    load (mkFromValue v) = v ∧
    eqNullb (mkFromArgs construct args) = false ∧
    load (mkFromArgs construct args) = construct args :=
  ⟨rfl, rfl, rfl, rfl⟩

end AtomicWrapper

namespace AtomicWrapper.Concurrent

/-!
Interleaving model of K threads each executing the void-form `update` loop once
with the mutate function "increment a shared numeric field by 1" on a shared
slot (value type embedded as the numeric field, a `Nat`, whose
default-constructed value is 0).

Snapshots are tagged with an identifier standing for the allocation address;
identifiers are drawn from a monotone counter, so two distinct snapshots never
share one.  This models that a thread compares the slot against a pointer it
still holds: the `shared_ptr` in the thread's hand keeps its allocation alive,
so the address cannot be recycled and pointer equality coincides with identity
of the snapshot the thread observed.
-/

/-- A published snapshot: allocation identity plus the stored field value. -/
structure Snap where
  id : Nat
  val : Nat
deriving DecidableEq

/-- Pointer equality of slot contents, as `atomic_compare_exchange_weak` compares
them: null equals null, and two snapshot pointers are equal when they are the
same allocation. -/
def ptrEq : Option Snap → Option Snap → Bool
  | none, none => true
  | some a, some b => a.id == b.id
  | _, _ => false

/-- The field value a `load()` of the slot returns: a null pointer yields the
default-constructed value 0, otherwise the snapshot's value. -/
def snapVal : Option Snap → Nat
  | none => 0
  | some sn => sn.val

/-- Where one thread is in its single `update` call: before its initial atomic
load, holding an observed slot pointer (the loop's `currentObjectPtr`), or
returned after a successful compare-exchange. -/
inductive TState where
  | start : TState
  | loaded : Option Snap → TState
  | done : TState
deriving DecidableEq

/-- Global state: the slot, the allocation counter, and every thread's state. -/
structure Sys (K : Nat) where
  slot : Option Snap
  nextId : Nat
  threads : Fin K → TState

/-- Initial state: empty slot, no allocations, K threads about to call
`update` with the increment mutate function. -/
def initSys (K : Nat) : Sys K :=
  ⟨none, 0, fun _ => TState.start⟩

/-- One interleaved step of the system.  A thread performs its initial
`atomic_load`; or it attempts the compare-exchange: on success (the slot still
equals the observed pointer) it publishes a fresh snapshot holding the observed
value incremented by 1 (the loop body copied the observed value, ran the
mutate function on the copy, and allocated the copy) and returns; on failure —
the slot changed, or the weak compare-exchange failed spuriously — the current
slot pointer is written back into `currentObjectPtr` and the thread retries. -/
inductive Step {K : Nat} : Sys K → Sys K → Prop
  | load (s : Sys K) (i : Fin K) (h : s.threads i = TState.start) :
      Step s ⟨s.slot, s.nextId, Function.update s.threads i (TState.loaded s.slot)⟩
  | casSuccess (s : Sys K) (i : Fin K) (obs : Option Snap)
      (h : s.threads i = TState.loaded obs) (heq : ptrEq obs s.slot = true) :
      Step s ⟨some ⟨s.nextId, snapVal obs + 1⟩, s.nextId + 1,
        Function.update s.threads i TState.done⟩
  | casFail (s : Sys K) (i : Fin K) (obs : Option Snap)
      (h : s.threads i = TState.loaded obs) :
      Step s ⟨s.slot, s.nextId, Function.update s.threads i (TState.loaded s.slot)⟩

/-- Number of threads whose `update` call has completed. -/
def doneCount {K : Nat} (t : Fin K → TState) : Nat :=
  (Finset.univ.filter (fun i => t i = TState.done)).card

/-- The counting invariant: the slot's value equals the number of completed
updates, all snapshot identifiers in play are below the allocation counter,
and an observed pointer that still equals the slot pointer observes the slot's
value. -/
structure Inv {K : Nat} (s : Sys K) : Prop where
  slotCount : snapVal s.slot = doneCount s.threads
  slotFresh : ∀ sn, s.slot = some sn → sn.id < s.nextId
  obsFresh : ∀ i sn, s.threads i = TState.loaded (some sn) → sn.id < s.nextId
  obsConsistent : ∀ i obs, s.threads i = TState.loaded obs →
    ptrEq obs s.slot = true → snapVal obs = snapVal s.slot

lemma doneCount_update_of_ne {K : Nat} (t : Fin K → TState) (i : Fin K) (v : TState)
    (hi : t i ≠ TState.done) (hv : v ≠ TState.done) :
    doneCount (Function.update t i v) = doneCount t := by
  unfold doneCount
  congr 1
  apply Finset.filter_congr
  intro j _
  by_cases hj : j = i
  · subst hj
    simp [Function.update_same, hv, hi]
  · simp [Function.update_noteq hj]

lemma doneCount_update_done {K : Nat} (t : Fin K → TState) (i : Fin K)
    (hi : t i ≠ TState.done) :
    doneCount (Function.update t i TState.done) = doneCount t + 1 := by
  unfold doneCount
  have h : Finset.univ.filter (fun j => Function.update t i TState.done j = TState.done)
      = insert i (Finset.univ.filter (fun j => t j = TState.done)) := by
    ext j
    by_cases hj : j = i
    · subst hj
      simp [Function.update_same]
    · simp [Function.update_noteq hj, hj]
  rw [h, Finset.card_insert_of_not_mem (by simp [hi])]

lemma ptrEq_some_right {o : Option Snap} {b : Snap} (h : ptrEq o (some b) = true) :
    ∃ a, o = some a ∧ a.id = b.id := by
  cases o with
  | none => simp [ptrEq] at h
  | some a => exact ⟨a, rfl, by simpa [ptrEq] using h⟩

lemma inv_initSys (K : Nat) : Inv (initSys K) := by
  refine ⟨?_, ?_, ?_, ?_⟩
  · have h : (Finset.univ.filter (fun i : Fin K => TState.start = TState.done)) = ∅ := by
      apply Finset.filter_false_of_mem
      intro i _
      exact fun hc => TState.noConfusion hc
    simp only [initSys, doneCount, snapVal, h, Finset.card_empty]
  · intro sn hsn
    exact Option.noConfusion hsn
  · intro i sn hi
    exact TState.noConfusion hi
  · intro i obs hi
    exact absurd hi (fun hc => TState.noConfusion hc)

lemma inv_step {K : Nat} {s s' : Sys K} (hs : Inv s) (h : Step s s') : Inv s' := by
  cases h with
  | load i hi =>
      refine ⟨?_, hs.slotFresh, ?_, ?_⟩
      · show snapVal s.slot = doneCount (Function.update s.threads i (TState.loaded s.slot))
        rw [hs.slotCount]
        exact (doneCount_update_of_ne s.threads i _
          (by rw [hi]; intro hc; exact TState.noConfusion hc)
          (by intro hc; exact TState.noConfusion hc)).symm
      · intro j sn hj
        have hj' : Function.update s.threads i (TState.loaded s.slot) j
            = TState.loaded (some sn) := hj
        by_cases hji : j = i
        · subst hji
          rw [Function.update_same] at hj'
          exact hs.slotFresh sn (TState.loaded.inj hj')
        · rw [Function.update_noteq hji] at hj'
          exact hs.obsFresh j sn hj'
      · intro j obs hj heq
        have hj' : Function.update s.threads i (TState.loaded s.slot) j
            = TState.loaded obs := hj
        have heq' : ptrEq obs s.slot = true := heq
        show snapVal obs = snapVal s.slot
        by_cases hji : j = i
        · subst hji
          rw [Function.update_same] at hj'
          rw [TState.loaded.inj hj']
        · rw [Function.update_noteq hji] at hj'
          exact hs.obsConsistent j obs hj' heq'
  | casFail i obs hi =>
      refine ⟨?_, hs.slotFresh, ?_, ?_⟩
      · show snapVal s.slot = doneCount (Function.update s.threads i (TState.loaded s.slot))
        rw [hs.slotCount]
        exact (doneCount_update_of_ne s.threads i _
          (by rw [hi]; intro hc; exact TState.noConfusion hc)
          (by intro hc; exact TState.noConfusion hc)).symm
      · intro j sn hj
        have hj' : Function.update s.threads i (TState.loaded s.slot) j
            = TState.loaded (some sn) := hj
        by_cases hji : j = i
        · subst hji
          rw [Function.update_same] at hj'
          exact hs.slotFresh sn (TState.loaded.inj hj')
        · rw [Function.update_noteq hji] at hj'
          exact hs.obsFresh j sn hj'
      · intro j obs' hj heq
        have hj' : Function.update s.threads i (TState.loaded s.slot) j
            = TState.loaded obs' := hj
        have heq' : ptrEq obs' s.slot = true := heq
        show snapVal obs' = snapVal s.slot
        by_cases hji : j = i
        · subst hji
          rw [Function.update_same] at hj'
          rw [TState.loaded.inj hj']
        · rw [Function.update_noteq hji] at hj'
          exact hs.obsConsistent j obs' hj' heq'
  | casSuccess i obs hi heq =>
      refine ⟨?_, ?_, ?_, ?_⟩
      · show snapVal (some ⟨s.nextId, snapVal obs + 1⟩)
            = doneCount (Function.update s.threads i TState.done)
        have hobs : snapVal obs = snapVal s.slot := hs.obsConsistent i obs hi heq
        have hcount : doneCount (Function.update s.threads i TState.done)
            = doneCount s.threads + 1 :=
          doneCount_update_done s.threads i
            (by rw [hi]; intro hc; exact TState.noConfusion hc)
        rw [hcount, ← hs.slotCount, ← hobs]
        rfl
      · intro sn hsn
        have hsn' : (some ⟨s.nextId, snapVal obs + 1⟩ : Option Snap) = some sn := hsn
        have hval : sn = ⟨s.nextId, snapVal obs + 1⟩ := (Option.some.inj hsn').symm
        subst hval
        exact Nat.lt_succ_self _
      · intro j sn hj
        have hj' : Function.update s.threads i TState.done j
            = TState.loaded (some sn) := hj
        by_cases hji : j = i
        · subst hji
          rw [Function.update_same] at hj'
          exact TState.noConfusion hj'
        · rw [Function.update_noteq hji] at hj'
          exact Nat.lt_trans (hs.obsFresh j sn hj') (Nat.lt_succ_self _)
      · intro j obs' hj heq'
        have hj' : Function.update s.threads i TState.done j
            = TState.loaded obs' := hj
        have heqq : ptrEq obs' (some ⟨s.nextId, snapVal obs + 1⟩) = true := heq'
        by_cases hji : j = i
        · subst hji
          rw [Function.update_same] at hj'
          exact TState.noConfusion hj'
        · rw [Function.update_noteq hji] at hj'
          obtain ⟨a, hao, haid⟩ := ptrEq_some_right heqq
          have hfresh : a.id < s.nextId := hs.obsFresh j a (hao ▸ hj')
          rw [haid] at hfresh
          exact absurd hfresh (Nat.lt_irrefl _)

lemma inv_reachable {K : Nat} {s : Sys K}
    (h : Relation.ReflTransGen Step (initSys K) s) : Inv s := by
  induction h with
  | refl => exact inv_initSys K
  | tail _ hstep ih => exact inv_step ih hstep

lemma doneCount_all {K : Nat} (t : Fin K → TState) (h : ∀ i, t i = TState.done) :
    doneCount t = K := by
  unfold doneCount
  have hfilter : Finset.univ.filter (fun i : Fin K => t i = TState.done) = Finset.univ := by
    apply Finset.filter_true_of_mem
    intro i _
    exact h i
  rw [hfilter, Finset.card_univ, Fintype.card_fin]

/-- C2: if K threads each call `update` once with a mutate function that
increments the shared numeric field by 1, and no other writers are active,
then in every reachable state in which all K calls have completed, `load()`
returns exactly K (K increments, none lost), for every K — in particular
K = 1, 8, 64. -/
theorem no_lost_updates {K : Nat} (s : Sys K)
    (hreach : Relation.ReflTransGen Step (initSys K) s)
    (hdone : ∀ i, s.threads i = TState.done) :
    snapVal s.slot = K := by
  rw [(inv_reachable hreach).slotCount]
  exact doneCount_all s.threads hdone

/-- A concrete closed run for K = 1: the single thread loads the empty slot,
its compare-exchange succeeds, and the final `load()` observes 1. -/
theorem no_lost_updates_witness :
    snapVal (Sys.slot
      (⟨some ⟨0, 1⟩, 1,
        Function.update
          (Function.update (fun _ => TState.start) (0 : Fin 1) (TState.loaded none))
          (0 : Fin 1) TState.done⟩ : Sys 1)) = 1 := by
  apply no_lost_updates
  · refine Relation.ReflTransGen.tail (Relation.ReflTransGen.tail Relation.ReflTransGen.refl
      (Step.load (initSys 1) 0 rfl)) ?_
    exact Step.casSuccess _ 0 none (by simp [initSys, Function.update_same]) rfl
  · intro i
    have hi : i = 0 := Subsingleton.elim i 0
    subst hi
    simp [Function.update_same]

end AtomicWrapper.Concurrent
